import Mathlib

/-!
Shallow embedding of the DerpFlag/ai_video pipeline:
the Supabase edge function `process-pipeline/index.ts`, the two stitcher
scripts in `stitcher/script.js`, and the webapp submit route
`webapp/src/app/api/submit/route.ts`.

Durations (seconds, from ffprobe) are modelled as rationals; JavaScript's
`Number.prototype.toFixed(f)` is modelled as rounding to `f` decimal places
(round half away from zero, which for the positive values arising here agrees
with `round`).
-/

namespace AiVideo

/-- JavaScript `x.toFixed f` viewed as a rational: round `x` to `f` decimal
places (half up, as JS does for the positive durations used here). -/
def toFixed (f : ℕ) (q : ℚ) : ℚ := (round (q * 10 ^ f) : ℤ) / 10 ^ f

/-! ## Speed-matching step of the stitcher (script.js, second script, Step 5)

`speedFactor = videoDuration / audioDuration`;
video filter `setpts=PTS*{(1/speedFactor).toFixed(6)}`;
audio filter `atempo=2.0,atempo={(speedFactor/2).toFixed(6)}` when
`speedFactor > 2`, else `atempo={speedFactor.toFixed(6)}`;
run only when `Math.abs(videoDuration - audioDuration) > 0.5 && concatAudioPath`.
-/

/-- The numeric content of the two ffmpeg filters built by the speed-matching
step: the multiplier in `setpts=PTS*m` and the list of tempo factors in the
`atempo` chain. -/
structure SpeedFilters where
  ptsMul : ℚ
  atempoChain : List ℚ
deriving DecidableEq, Repr

/-- Step 5 of the second stitcher script. `voAudio` is `some a` when a
concatenated voiceover exists with duration `a` (`concatAudioPath` non-null),
`none` otherwise; in the latter case the code sets
`audioDuration = videoDuration`. Returns `none` when the concatenated video is
used unchanged, `some` filters when the speed adjustment runs. -/
def speedAdjustStep (videoDuration : ℚ) (voAudio : Option ℚ) : Option SpeedFilters :=
  let audioDuration := voAudio.getD videoDuration
  if |videoDuration - audioDuration| > 1/2 ∧ voAudio.isSome then
    let speedFactor := videoDuration / audioDuration
    some { ptsMul := toFixed 6 (1 / speedFactor)
         , atempoChain :=
             if speedFactor > 2 then [2, toFixed 6 (speedFactor / 2)]
             else [toFixed 6 speedFactor] }
  else none

/-! ## Job status enum (SQL `jobs.status CHECK`) and the status updates
performed by the edge function and the stitcher. -/

/-- The eight status values allowed by the `jobs.status` CHECK constraint. -/
inductive Status where
  | pending
  | generating_jsons
  | generating_voice
  | generating_images
  | generating_videos
  | stitching
  | complete
  | error
deriving DecidableEq, Repr, Fintype

/-- The list of allowed status strings, in the order of the CHECK constraint. -/
def statusEnum : List Status :=
  [.pending, .generating_jsons, .generating_voice, .generating_images,
   .generating_videos, .stitching, .complete, .error]

/-- Position of a status in the claimed progression order
(`error` ranked last, as the terminal failure state). -/
def statusRank : Status → ℕ
  | .pending => 0
  | .generating_jsons => 1
  | .generating_voice => 2
  | .generating_images => 3
  | .generating_videos => 4
  | .stitching => 5
  | .complete => 6
  | .error => 7

/-- One step of the status trace moves forward: the earlier status is never
`error` (so `error` is terminal) and the rank never decreases. -/
def forwardStep (s t : Status) : Prop := s ≠ .error ∧ statusRank s ≤ statusRank t

instance (s t : Status) : Decidable (forwardStep s t) :=
  inferInstanceAs (Decidable (s ≠ .error ∧ statusRank s ≤ statusRank t))

/-- Failure configuration of one end-to-end run: which pipeline step throws,
whether the GitHub token is present and the dispatch succeeds, and whether the
stitcher's main assembly throws. -/
structure RunCfg where
  jsonsFail : Bool
  voiceFail : Bool
  imagesFail : Bool
  tokenPresent : Bool
  dispatchOk : Bool
  stitchFail : Bool
deriving DecidableEq, Fintype

/-- Status updates written by `pipeline` in `process-pipeline/index.ts`, in
order: `generateJsons` sets `generating_jsons`, `generateVoice` sets
`generating_voice`, `generateImages` sets `generating_images`,
`triggerStitcher` sets `stitching` only when the token is present and the
GitHub dispatch succeeds; a step that throws lands in the catch, which calls
`setError` (status `error`). -/
def pipelineStatusTrace (c : RunCfg) : List Status :=
  [.generating_jsons] ++
  if c.jsonsFail then [.error] else
  [.generating_voice] ++
  if c.voiceFail then [.error] else
  [.generating_images] ++
  if c.imagesFail then [.error] else
  if c.tokenPresent && c.dispatchOk then [.stitching] else []

/-- The stitcher runs only when the pipeline reached a successful
`triggerStitcher` dispatch. -/
def stitcherRuns (c : RunCfg) : Bool :=
  !c.jsonsFail && !c.voiceFail && !c.imagesFail && c.tokenPresent && c.dispatchOk

/-- Status updates written by the stitcher's `main` (script.js): `stitching`
at the start, then `complete` on success or `error` on a thrown failure. -/
def stitcherStatusTrace (stitchFail : Bool) : List Status :=
  [.stitching] ++ if stitchFail then [.error] else [.complete]

/-- The full sequence of status values a job row takes on: `pending` from the
insert, then the pipeline's updates, then the stitcher's when it runs. -/
def systemTrace (c : RunCfg) : List Status :=
  .pending :: (pipelineStatusTrace c ++
    if stitcherRuns c then stitcherStatusTrace c.stitchFail else [])

/-- Executable check that consecutive statuses in a trace move forward. -/
def chainForwardB : List Status → Bool
  | [] => true
  | [_] => true
  | s :: t :: r => (decide (forwardStep s t)) && chainForwardB (t :: r)

/-- `true` when `s` occurs in `l` and `error` occurs strictly after it. -/
def occursThenError (s : Status) : List Status → Bool
  | [] => false
  | t :: rest => if t = s then rest.any (· = .error) else occursThenError s rest

/-! ## Error updates (`setError` in index.ts; catch blocks) -/

/-- The fields of a `jobs` row touched by an error-path update. -/
structure JobUpdate where
  status : Option Status
  errorMessage : Option String
deriving DecidableEq, Repr

/-- `setError` (index.ts lines 39-42): set status `error` and `error_message`
to the message. -/
def setErrorUpdate (msg : String) : JobUpdate :=
  { status := some .error, errorMessage := some msg }

/-- The catch handler of `pipeline` (index.ts lines 505-507): every error
thrown out of a step is passed, as its message, to `setError`. -/
def pipelineCatchUpdate (thrownMsg : String) : JobUpdate := setErrorUpdate thrownMsg

/-- The catch handler of the stitcher's `main` (script.js lines 251-254):
status `error`, `error_message` = the thrown message. -/
def stitcherCatchUpdate (thrownMsg : String) : JobUpdate :=
  { status := some .error, errorMessage := some thrownMsg }

/-- Message of the error `generateJsons` wraps around any failure
(index.ts line 342; the template ends with a space). -/
def openRouterFailMsg (inner : String) : String := "OpenRouter failed: " ++ inner ++ " "

/-- Message thrown by the stitcher when no video segment was produced
(script.js line 196). -/
def noVideoSegmentsMsg : String := "No video segments successfully created."

/-- Message thrown when an encoded segment file is empty (script.js line 187). -/
def encodeFailedMsg (i : ℕ) : String :=
  "Visual segment " ++ toString i ++ " encode failed (empty output)."

/-! ## `withRetry` (index.ts lines 44-63) -/

/-- One run of the `withRetry` loop starting at attempt `i` with the given
number of retries left. `fn k` is the outcome of the `k`-th invocation.
Returns the sleep durations performed, the number of invocations made, and the
final outcome (`.error` = the loop falls through and throws `lastError`, which
is the error of the final attempt). -/
def withRetryFrom (fn : ℕ → Except ε α) (delayMs : ℕ) (i : ℕ) :
    ℕ → List ℕ × ℕ × Except ε α
  | 0 => ([], 1, fn i)
  | left + 1 =>
    match fn i with
    | .ok a => ([], 1, .ok a)
    | .error _ =>
      let rest := withRetryFrom fn delayMs (i + 1) left
      (delayMs :: rest.1, rest.2.1 + 1, rest.2.2)

/-- `withRetry(fn, retries, delay)`: attempts `0 .. retries`. -/
def withRetryRun (fn : ℕ → Except ε α) (retries delayMs : ℕ) :
    List ℕ × ℕ × Except ε α :=
  withRetryFrom fn delayMs 0 retries

/-! ## `generateVoice` loop (index.ts lines 346-396) -/

def ttsDelayMs : ℕ := 5000

def ttsRetryDelayMs : ℕ := 10000

/-- `speaker.startsWith('ref:')`, expressed on the character data. -/
def isVoiceClone (speaker : String) : Bool := "ref:".data.isPrefixOf speaker.data

/-- `segmentDelayMs = isVoiceClone ? 6000 : TTS_DELAY_MS`. -/
def segmentDelayMs (speaker : String) : ℕ :=
  if isVoiceClone speaker then 6000 else ttsDelayMs

/-- Observable events of the `generateVoice` loop. -/
inductive VoiceEvent where
  | wait (ms : ℕ)
  | request (i : ℕ)
  | logFail (i : ℕ)
deriving DecidableEq, Repr

/-- Iteration `i` (0-based) of the `generateVoice` loop: a delay before every
request except the first; when the segment fails after all retries, the catch
logs the failure and sleeps `TTS_DELAY_MS` before the next iteration. -/
def voiceSegmentEvents (speaker : String) (fail : ℕ → Bool) (i : ℕ) : List VoiceEvent :=
  (if 0 < i then [.wait (segmentDelayMs speaker)] else []) ++ [.request i] ++
    (if fail i then [.logFail i, .wait ttsDelayMs] else [])

/-- The whole `generateVoice` loop over `n` segments. -/
def generateVoiceEvents (speaker : String) (fail : ℕ → Bool) (n : ℕ) : List VoiceEvent :=
  (List.range n).flatMap (voiceSegmentEvents speaker fail)

/-- The TTS requests issued, in order. -/
def voiceRequests (l : List VoiceEvent) : List ℕ :=
  l.filterMap fun e => match e with | .request i => some i | _ => none

/-! ## `generateImages` loop (index.ts lines 437-480) -/

/-- Observable events of the `generateImages` loop. -/
inductive ImageEvent where
  | request (i : ℕ)
  | upload (i : ℕ)
  | logFail (i : ℕ)
deriving DecidableEq, Repr

/-- Iteration `i` of the `generateImages` loop: the generation request, then
an upload on success; a failure (after retries) is logged and the loop
continues. -/
def imageSegmentEvents (fail : ℕ → Bool) (i : ℕ) : List ImageEvent :=
  [.request i] ++ (if fail i then [.logFail i] else [.upload i])

/-- The whole `generateImages` loop over `n` segments. -/
def generateImagesEvents (fail : ℕ → Bool) (n : ℕ) : List ImageEvent :=
  (List.range n).flatMap (imageSegmentEvents fail)

/-- The image-generation requests issued, in order. -/
def imageRequests (l : List ImageEvent) : List ℕ :=
  l.filterMap fun e => match e with | .request i => some i | _ => none

/-! ## Ken Burns per-segment parameters (script.js, first script, lines 139-175) -/

/-- The four Ken Burns motion styles, in the order of the `motions` array. -/
inductive Motion where
  | zoom_in
  | zoom_out
  | pan_right
  | pan_left
deriving DecidableEq, Repr

/-- `const motions = ['zoom_in', 'zoom_out', 'pan_right', 'pan_left']`. -/
def motions : List Motion := [.zoom_in, .zoom_out, .pan_right, .pan_left]

/-- The numeric parameters of one encoded Ken Burns clip. -/
structure ClipParams where
  style : Motion
  fps : ℕ
  totalFrames : ℤ
  targetDuration : ℚ
deriving DecidableEq, Repr

/-- Parameters computed for segment `i` (1-based) with audio duration
`duration`: `style = motions[(i - 1) % motions.length]`, `fps = 30`,
`totalFrames = Math.max(Math.ceil(duration * fps), 2)`, and the encode's
`-t duration.toFixed(3)` output option. -/
def kenBurnsClip (i : ℕ) (duration : ℚ) : ClipParams :=
  let fps : ℕ := 30
  { style := motions.getD ((i - 1) % motions.length) .zoom_in
  , fps := fps
  , totalFrames := max ⌈duration * (fps : ℚ)⌉ 2
  , targetDuration := toFixed 3 duration }

/-! ## Stitcher per-segment loop (script.js, first script, lines 113-196)

`downloadFile` (lines 30-58) opens `fs.createWriteStream(destPath)` before the
request is issued, so a 0-byte file exists as soon as the promise is created.
On a non-200 response it rejects without removing that file (the `fs.unlink`
at line 53 runs only on a write-stream `error` event). The per-segment catch
(lines 125-127) logs "using default 6s", but line 130 `fs.existsSync` then
finds the leftover empty file and line 131 `duration = await
getDuration(audioPath)` — outside both per-segment try blocks — rejects
(ffprobe cannot probe a 0-byte file), escapes the loop, and fails the whole
job via the outer catch. The 6-second default applies only when no file
remains on disk (the write-stream-error path, which unlinks). -/

/-- Outcome of the audio download and duration probe for one segment. -/
inductive AudioResult where
  /-- Download succeeded (non-empty file); ffprobe returned `duration`. -/
  | ok (duration : ℚ)
  /-- Download failed with no file left on disk: the 6-second default applies
  and the loop continues. -/
  | failNoFile
  /-- Download failed leaving a 0-byte file (the non-200 path): `getDuration`
  rejects outside the per-segment try blocks and the whole job fails. -/
  | failFileLeft
deriving DecidableEq, Repr

/-- The ffprobe rejection that escapes the segment loop. -/
inductive StitchCrash where
  | probeEmptyFile (segment : ℕ)
deriving DecidableEq, Repr

/-- How the stitcher job can fail after the segment loop question is settled:
the escaped ffprobe rejection, or the explicit throw at line 196. -/
inductive StitchError where
  | probeEmptyFile (segment : ℕ)
  | noVideoSegments
deriving DecidableEq, Repr

/-- The external outcomes one segment iteration can observe: the audio
download/probe outcome, whether the image download succeeds, whether the
`k`-th ffmpeg zoompan invocation completes, and whether the encoded file
exists and is non-empty. -/
structure SegmentEnv where
  audio : AudioResult
  imageOk : Bool
  encodeRunOk : ℕ → Bool
  outputNonEmpty : Bool

/-- What one iteration of the segment loop did. -/
structure SegmentRun where
  idx : ℕ
  duration : ℚ
  usedDefaultDuration : Bool
  clip : Option ClipParams
  encodeAttempts : ℕ
  retrySleeps : List ℕ
  produced : Bool

/-- The visual part of iteration `i` (lines 134-193), reached with duration
`duration`: the encode is retried once after a 1000 ms sleep; an empty output
file (or a failed image download) means the segment produced no video, and
the per-segment catch logs and moves on. -/
def encodeSegment (env : SegmentEnv) (i : ℕ) (duration : ℚ) (usedDefault : Bool) :
    SegmentRun :=
  if env.imageOk then
    let clip := some (kenBurnsClip i duration)
    if env.encodeRunOk 0 then
      ⟨i, duration, usedDefault, clip, 1, [], env.outputNonEmpty⟩
    else if env.encodeRunOk 1 then
      ⟨i, duration, usedDefault, clip, 2, [1000], env.outputNonEmpty⟩
    else
      ⟨i, duration, usedDefault, clip, 2, [1000], false⟩
  else ⟨i, duration, usedDefault, none, 0, [], false⟩

/-- Iteration `i` (1-based) of the segment loop. A download failure that
leaves the 0-byte file behind crashes the iteration (the ffprobe rejection is
not caught by either per-segment try); otherwise the duration is the probed
one, or 6 when no audio file exists, and the visual part runs. -/
def processSegment (env : SegmentEnv) (i : ℕ) : Except StitchCrash SegmentRun :=
  match env.audio with
  | .failFileLeft => .error (.probeEmptyFile i)
  | .ok d => .ok (encodeSegment env i d false)
  | .failNoFile => .ok (encodeSegment env i 6 true)

/-- The segment loop from index `i` with `left` segments to go
(`for (let i = 1; i <= SEGMENT_COUNT; i++)`): a crashed iteration aborts the
whole loop; otherwise all iterations run in order. -/
def stitcherLoopFrom (envs : ℕ → SegmentEnv) (i : ℕ) :
    ℕ → Except StitchCrash (List SegmentRun)
  | 0 => .ok []
  | left + 1 =>
    match processSegment (envs i) i with
    | .error c => .error c
    | .ok r =>
      match stitcherLoopFrom envs (i + 1) left with
      | .error c => .error c
      | .ok rs => .ok (r :: rs)

/-- Indices of the segments whose video file was produced (`videoFiles`). -/
def stitcherVideoIdxs (runs : List SegmentRun) : List ℕ :=
  (runs.filter (·.produced)).map (·.idx)

/-- The loop followed by the post-loop check: an escaped ffprobe rejection
fails the job; otherwise `if (videoFiles.length === 0) throw ...` (line 196),
else the merge proceeds with the produced segments. -/
def stitcherAssembly (envs : ℕ → SegmentEnv) (n : ℕ) : Except StitchError (List ℕ) :=
  match stitcherLoopFrom envs 1 n with
  | .error (.probeEmptyFile i) => .error (.probeEmptyFile i)
  | .ok runs =>
    if stitcherVideoIdxs runs = [] then .error .noVideoSegments
    else .ok (stitcherVideoIdxs runs)

/-! ## Step sequence of one end-to-end run (index.ts `pipeline`, script.js `main`) -/

/-- The macroscopic steps of a run, including the steps named by the spec that
do not occur in the code (`genVideoClips`, `downloadEverything`). -/
inductive PipeStep where
  | genJsons
  | genVoice
  | genImages
  | genVideoClips
  | triggerStitch
  | downloadAssets (segment : ℕ)
  | encodeClip (segment : ℕ)
  | downloadEverything
  | mergeFfmpeg
  | uploadResult
  | updateStatusRow
deriving DecidableEq, Repr

/-- Per-segment body of the stitcher loop: download the segment's assets,
then encode its clip. -/
def segSteps (n : ℕ) : List PipeStep :=
  (List.range n).flatMap fun j => [.downloadAssets (j + 1), .encodeClip (j + 1)]

/-- The steps actually executed, in order: the edge function awaits
`generateJsons`, `generateVoice`, `generateImages`, `triggerStitcher` in
sequence; the stitcher then, for each segment in order, downloads that
segment's assets and encodes its Ken Burns clip, then runs the ffmpeg merge,
uploads the master file, and updates the job row. -/
def systemSteps (n : ℕ) : List PipeStep :=
  [.genJsons, .genVoice, .genImages, .triggerStitch] ++ segSteps n ++
    [.mergeFfmpeg, .uploadResult, .updateStatusRow]

/-- The step order asserted by the spec sentence behind C6. -/
def claimedSteps : List PipeStep :=
  [.genJsons, .genVoice, .genImages, .genVideoClips, .downloadEverything,
   .mergeFfmpeg, .uploadResult, .updateStatusRow]

/-! ## Segment-count clamping (index.ts line 497) -/

/-- `Math.min(Math.max(parseInt(String(segment_count), 10) || 5, 1), 60)`.
`parsed = none` models a `parseInt` result of `NaN`; both `NaN` and `0` are
falsy, so `|| 5` replaces them with 5. -/
def effectiveSegmentCount (parsed : Option ℤ) : ℤ :=
  let v : ℤ :=
    match parsed with
    | none => 5
    | some n => if n = 0 then 5 else n
  min (max v 1) 60

/-! ## Submit route (webapp/src/app/api/submit/route.ts) -/

/-- The request body fields the route reads; `none` models an absent field. -/
structure SubmitBody where
  script : Option String
  voice_name : Option String
  segment_count : Option ℤ

/-- JS truthiness of a possibly-absent string (falsy iff absent or empty). -/
def truthyStr : Option String → Bool
  | none => false
  | some s => !s.isEmpty

/-- JS truthiness of a possibly-absent number (falsy iff absent or zero). -/
def truthyInt : Option ℤ → Bool
  | none => false
  | some n => n != 0

/-- The columns the route's insert sets. -/
structure JobRow where
  script : String
  voice_name : String
  segment_count : ℤ
  status : Status
  progress : ℕ
deriving DecidableEq, Repr

/-- The HTTP response of the route. -/
structure SubmitResponse where
  statusCode : ℕ
  success : Bool
  jobId : Option ℕ
deriving DecidableEq, Repr

/-- The row the route inserts: `voice_name || 'en-US-AndrewMultilingualNeural'`,
`parseInt(segment_count) || 5`, status `pending`, progress 0. -/
def submitInsertRow (b : SubmitBody) : JobRow :=
  { script := b.script.getD ""
  , voice_name :=
      match b.voice_name with
      | some s => if s.isEmpty then "en-US-AndrewMultilingualNeural" else s
      | none => "en-US-AndrewMultilingualNeural"
  , segment_count :=
      match b.segment_count with
      | some n => if n = 0 then 5 else n
      | none => 5
  , status := .pending
  , progress := 0 }

/-- `POST` handler of the submit route. `dbNewId` is the outcome of the
insert (`none` = the database reported an error, mapped to HTTP 500). Returns
the response together with the list of rows the handler asked the database to
insert. -/
def submitRoute (b : SubmitBody) (dbNewId : Option ℕ) :
    SubmitResponse × List JobRow :=
  if !(truthyStr b.script && truthyStr b.voice_name && truthyInt b.segment_count) then
    (⟨400, false, none⟩, [])
  else
    match dbNewId with
    | none => (⟨500, false, none⟩, [submitInsertRow b])
    | some id => (⟨200, true, some id⟩, [submitInsertRow b])

/-! ## Theorems -/

/-- C1: for positive concatenated durations `V` (video) and `A` (voiceover),
the speed-matching step computes `speedFactor = V/A`; the video filter
multiplies PTS by `1/speedFactor = A/V` rounded to 6 decimals, the audio
filter is a single `atempo=speedFactor` when `speedFactor ≤ 2` and the chain
`atempo=2.0,atempo=speedFactor/2` when `speedFactor > 2`; the adjustment runs
only when a voiceover exists and `|V - A| > 0.5`, and otherwise the
concatenated video is used unchanged. -/
theorem speed_matching_formula (V A : ℚ) (hV : 0 < V) (hA : 0 < A) :
    (1/2 < |V - A| →
      speedAdjustStep V (some A) =
        some ⟨toFixed 6 (A / V),
          if 2 < V / A then [2, toFixed 6 (V / (2 * A))] else [toFixed 6 (V / A)]⟩)
    ∧ (¬ 1/2 < |V - A| → speedAdjustStep V (some A) = none)
    ∧ speedAdjustStep V none = none := by
  refine ⟨?_, ?_, ?_⟩
  · intro h
    simp only [speedAdjustStep, Option.getD, Option.isSome]
    rw [if_pos ⟨h, by simp⟩]
    have h1 : 1 / (V / A) = A / V := one_div_div V A
    have h2 : V / A / 2 = V / (2 * A) := by rw [div_div, mul_comm]
    rw [h1, h2]
  · intro h
    simp only [speedAdjustStep, Option.getD, Option.isSome]
    rw [if_neg]
    rintro ⟨h1, -⟩
    exact h h1
  · simp [speedAdjustStep]

/-- Witness for C1 at `V = 10`, `A = 4` (speed factor `5/2 > 2`). -/
theorem speed_matching_formula_witness :
    speedAdjustStep 10 (some 4) = some ⟨toFixed 6 (4 / 10), [2, toFixed 6 (10 / (2 * 4))]⟩
    ∧ speedAdjustStep 10 none = none := by
  have h := speed_matching_formula 10 4 (by norm_num) (by norm_num)
  refine ⟨?_, h.2.2⟩
  rw [h.1 (by norm_num), if_pos (by norm_num)]

/-- `chainForwardB` decides `List.Chain' forwardStep`. -/
lemma chainForwardB_iff : ∀ l : List Status, chainForwardB l = true ↔ l.Chain' forwardStep
  | [] => by simp [chainForwardB]
  | [s] => by simp [chainForwardB]
  | s :: t :: r => by
    rw [List.chain'_cons, ← chainForwardB_iff (t :: r)]
    simp [chainForwardB]

/-- C2: over every failure configuration of a run, every status value a job
row takes on is in the CHECK-constraint enum; consecutive status updates move
forward (never backward) in the order pending → generating_jsons →
generating_voice → generating_images → generating_videos → stitching →
complete, with `error` only as a final (terminal) element; and from every
non-terminal status that some run reaches there is a run that reaches it and
later ends in `error`. -/
theorem status_progression :
    (∀ a b c d e f : Bool, ∀ s ∈ systemTrace ⟨a, b, c, d, e, f⟩, s ∈ statusEnum)
    ∧ (∀ a b c d e f : Bool, (systemTrace ⟨a, b, c, d, e, f⟩).Chain' forwardStep)
    ∧ (∀ s : Status, s ≠ .complete → s ≠ .error →
        (∃ a b c d e f : Bool, s ∈ systemTrace ⟨a, b, c, d, e, f⟩) →
        ∃ a b c d e f : Bool, occursThenError s (systemTrace ⟨a, b, c, d, e, f⟩) = true) := by
  refine ⟨by decide, ?_, by decide⟩
  intro a b c d e f
  rw [← chainForwardB_iff]
  revert a b c d e f
  decide

/-- Witness for C2: from `pending` some run later reaches `error`. -/
theorem status_progression_witness :
    ∃ a b c d e f : Bool, occursThenError .pending (systemTrace ⟨a, b, c, d, e, f⟩) = true :=
  status_progression.2.2 .pending (by decide) (by decide)
    ⟨true, false, false, false, false, false, by decide⟩

lemma voiceRequests_append (l l' : List VoiceEvent) :
    voiceRequests (l ++ l') = voiceRequests l ++ voiceRequests l' := by
  simp [voiceRequests]

lemma voiceRequests_segment (speaker : String) (fail : ℕ → Bool) (i : ℕ) :
    voiceRequests (voiceSegmentEvents speaker fail i) = [i] := by
  by_cases h0 : 0 < i <;> by_cases hf : fail i = true <;>
    simp [voiceSegmentEvents, voiceRequests, h0, hf]

lemma generateVoiceEvents_requests (speaker : String) (fail : ℕ → Bool) (n : ℕ) :
    voiceRequests (generateVoiceEvents speaker fail n) = List.range n := by
  induction n with
  | zero => simp [generateVoiceEvents, voiceRequests]
  | succ n ih =>
    rw [generateVoiceEvents, List.range_succ, List.flatMap_append,
      ← generateVoiceEvents, voiceRequests_append, ih]
    simp [voiceRequests_segment, List.range_succ]

lemma imageRequests_append (l l' : List ImageEvent) :
    imageRequests (l ++ l') = imageRequests l ++ imageRequests l' := by
  simp [imageRequests]

lemma imageRequests_segment (fail : ℕ → Bool) (i : ℕ) :
    imageRequests (imageSegmentEvents fail i) = [i] := by
  by_cases hf : fail i = true <;> simp [imageSegmentEvents, imageRequests, hf]

lemma generateImagesEvents_requests (fail : ℕ → Bool) (n : ℕ) :
    imageRequests (generateImagesEvents fail n) = List.range n := by
  induction n with
  | zero => simp [generateImagesEvents, imageRequests]
  | succ n ih =>
    rw [generateImagesEvents, List.range_succ, List.flatMap_append,
      ← generateImagesEvents, imageRequests_append, ih]
    simp [imageRequests_segment, List.range_succ]

lemma encodeSegment_idx (env : SegmentEnv) (i : ℕ) (d : ℚ) (u : Bool) :
    (encodeSegment env i d u).idx = i := by
  simp only [encodeSegment]
  split
  · split
    · rfl
    · split <;> rfl
  · rfl

lemma encodeSegment_clip (env : SegmentEnv) (i : ℕ) (d : ℚ) (u : Bool)
    (h : env.imageOk = true) :
    (encodeSegment env i d u).clip = some (kenBurnsClip i d) := by
  simp only [encodeSegment, h, if_true]
  split
  · rfl
  · split <;> rfl

lemma processSegment_ok (env : SegmentEnv) (i : ℕ) (h : env.audio ≠ .failFileLeft) :
    ∃ r, processSegment env i = .ok r ∧ r.idx = i := by
  cases ha : env.audio with
  | ok d =>
    exact ⟨encodeSegment env i d false, by simp [processSegment, ha],
      encodeSegment_idx env i d false⟩
  | failNoFile =>
    exact ⟨encodeSegment env i 6 true, by simp [processSegment, ha],
      encodeSegment_idx env i 6 true⟩
  | failFileLeft => exact absurd ha h

lemma stitcherLoopFrom_ok (envs : ℕ → SegmentEnv) :
    ∀ (left i : ℕ), (∀ j, i ≤ j → j < i + left → (envs j).audio ≠ .failFileLeft) →
      ∃ runs, stitcherLoopFrom envs i left = .ok runs
        ∧ runs.map (·.idx) = (List.range left).map (· + i) := by
  intro left
  induction left with
  | zero => exact fun i _ => ⟨[], rfl, by simp⟩
  | succ left ih =>
    intro i h
    obtain ⟨r, hr, hidx⟩ := processSegment_ok (envs i) i (h i le_rfl (by omega))
    obtain ⟨rs, hrs, hmap⟩ := ih (i + 1) (fun j hj1 hj2 => h j (by omega) (by omega))
    refine ⟨r :: rs, ?_, ?_⟩
    · simp only [stitcherLoopFrom, hr, hrs]
    · rw [List.map_cons, hidx, hmap, List.range_succ_eq_map, List.map_cons, List.map_map,
        Nat.zero_add]
      congr 1
      exact List.map_congr_left fun x _ => by simp [Function.comp]; omega

/-- C3: a voice segment that fails after all retries, or an image segment that
fails after all retries, is logged and the loop continues: every loop issues
the request for every segment index regardless of the failure pattern. In the
stitcher, a per-segment visual failure (image download, encode run, empty
output) never aborts an iteration, and the loop processes all `n` segments
(indices `1..n`) for every pattern of visual failures — provided no segment
takes the audio-download crash path (`getDuration` on a leftover 0-byte file),
which is an audio failure outside this claim's scope; see C7. -/
theorem per_segment_failures_continue :
    (∀ (speaker : String) (fail : ℕ → Bool) (n : ℕ),
        voiceRequests (generateVoiceEvents speaker fail n) = List.range n
        ∧ ∀ i, i < n → fail i = true →
            VoiceEvent.logFail i ∈ generateVoiceEvents speaker fail n)
    ∧ (∀ (fail : ℕ → Bool) (n : ℕ),
        imageRequests (generateImagesEvents fail n) = List.range n
        ∧ ∀ i, i < n → fail i = true →
            ImageEvent.logFail i ∈ generateImagesEvents fail n)
    ∧ (∀ (env : SegmentEnv) (i : ℕ), env.audio ≠ .failFileLeft →
        ∃ r, processSegment env i = .ok r ∧ r.idx = i)
    ∧ (∀ (envs : ℕ → SegmentEnv) (n : ℕ),
        (∀ j, 1 ≤ j → j ≤ n → (envs j).audio ≠ .failFileLeft) →
        ∃ runs, stitcherLoopFrom envs 1 n = .ok runs
          ∧ runs.map (·.idx) = (List.range n).map (· + 1)) := by
  refine ⟨fun speaker fail n => ⟨generateVoiceEvents_requests speaker fail n, ?_⟩,
    fun fail n => ⟨generateImagesEvents_requests fail n, ?_⟩,
    fun env i h => processSegment_ok env i h, fun envs n h => ?_⟩
  · intro i hi hf
    unfold generateVoiceEvents
    rw [List.mem_flatMap]
    exact ⟨i, by simp [hi], by simp [voiceSegmentEvents, hf]⟩
  · intro i hi hf
    unfold generateImagesEvents
    rw [List.mem_flatMap]
    exact ⟨i, by simp [hi], by simp [imageSegmentEvents, hf]⟩
  · exact stitcherLoopFrom_ok envs n 1 (fun j hj1 hj2 => h j hj1 (by omega))

/-- Witness for C3: with every voice segment failing, the loop still issues
both requests and logs the failure of segment 0; with every stitcher encode
failing (but audio healthy), the loop still processes both segments. -/
theorem per_segment_failures_continue_witness :
    VoiceEvent.logFail 0 ∈ generateVoiceEvents "Ryan" (fun _ => true) 2
    ∧ voiceRequests (generateVoiceEvents "Ryan" (fun _ => true) 2) = List.range 2
    ∧ ∃ runs, stitcherLoopFrom (fun _ => ⟨.ok 3, true, fun _ => false, true⟩) 1 2 = .ok runs
        ∧ runs.map (·.idx) = [1, 2] := by
  have h := per_segment_failures_continue.1 "Ryan" (fun _ => true) 2
  obtain ⟨runs, hruns, hmap⟩ := per_segment_failures_continue.2.2.2
    (fun _ => ⟨.ok 3, true, fun _ => false, true⟩) 2 (fun j _ _ => by simp)
  exact ⟨h.2 0 (by decide) rfl, h.1, runs, hruns, by rw [hmap]; rfl⟩

/-- C4: every error thrown out of a pipeline step lands in the `pipeline`
catch, which updates the job row to status `error` with `error_message` equal
to the thrown message, and the stitcher's main catch does the same; the
messages built by the code's own throw sites are non-empty. (`triggerStitcher`
catches its own dispatch failure internally and throws nothing, so the claim
holds for it vacuously.) -/
theorem error_status_updates :
    (∀ m : String, pipelineCatchUpdate m = ⟨some .error, some m⟩)
    ∧ (∀ m : String, stitcherCatchUpdate m = ⟨some .error, some m⟩)
    ∧ (∀ inner : String, openRouterFailMsg inner ≠ "")
    ∧ noVideoSegmentsMsg ≠ ""
    ∧ (∀ i : ℕ, encodeFailedMsg i ≠ "") := by
  refine ⟨fun m => rfl, fun m => rfl, ?_, by decide, ?_⟩
  · intro inner h
    have := congrArg String.length h
    simp [openRouterFailMsg, String.length_append] at this
    exact absurd this.2 (by decide)
  · intro i h
    have := congrArg String.length h
    simp [encodeFailedMsg, String.length_append] at this
    exact absurd this.2 (by decide)

/-- Witness for C4 at a concrete thrown message. -/
theorem error_status_updates_witness :
    pipelineCatchUpdate "OpenRouter failed: boom " = ⟨some .error, some "OpenRouter failed: boom "⟩
    ∧ openRouterFailMsg "boom" ≠ "" :=
  ⟨error_status_updates.1 "OpenRouter failed: boom ", error_status_updates.2.2.1 "boom"⟩

/-- C5: for segment `i` (1-based) with audio duration `d`, the clip is
computed from `totalFrames = max ⌈d * 30⌉ 2` at 30 fps; the motion style
cycles `zoom_in, zoom_out, pan_right, pan_left` by `(i - 1) % 4`; the encode's
target duration is `d` rounded to 3 decimals (within `1/2000` of `d`); and the
segment loop encodes with exactly these parameters, taking `d` from the
downloaded audio (default 6). -/
theorem ken_burns_parameters (i : ℕ) (d : ℚ) (hi : 1 ≤ i) :
    (kenBurnsClip i d).fps = 30
    ∧ (kenBurnsClip i d).totalFrames = max ⌈d * 30⌉ 2
    ∧ 2 ≤ (kenBurnsClip i d).totalFrames
    ∧ (kenBurnsClip (i + 4) d).style = (kenBurnsClip i d).style
    ∧ ((i - 1) % 4 = 0 → (kenBurnsClip i d).style = .zoom_in)
    ∧ ((i - 1) % 4 = 1 → (kenBurnsClip i d).style = .zoom_out)
    ∧ ((i - 1) % 4 = 2 → (kenBurnsClip i d).style = .pan_right)
    ∧ ((i - 1) % 4 = 3 → (kenBurnsClip i d).style = .pan_left)
    ∧ (kenBurnsClip i d).targetDuration = toFixed 3 d
    ∧ |(kenBurnsClip i d).targetDuration - d| ≤ 1 / 2000
    ∧ (∀ env : SegmentEnv, env.imageOk = true →
        (∀ d0 : ℚ, env.audio = .ok d0 →
          processSegment env i = .ok (encodeSegment env i d0 false)
          ∧ (encodeSegment env i d0 false).clip = some (kenBurnsClip i d0))
        ∧ (env.audio = .failNoFile →
          processSegment env i = .ok (encodeSegment env i 6 true)
          ∧ (encodeSegment env i 6 true).clip = some (kenBurnsClip i 6))) := by
  refine ⟨rfl, by norm_num [kenBurnsClip], le_max_right _ _, ?_, ?_, ?_, ?_, ?_, rfl, ?_, ?_⟩
  · show motions.getD ((i + 4 - 1) % motions.length) _ = motions.getD ((i - 1) % motions.length) _
    have h : i + 4 - 1 = (i - 1) + 4 := by omega
    simp only [motions, List.length_cons, List.length_nil, h, Nat.add_mod_right]
  · intro h; simp [kenBurnsClip, motions, h]
  · intro h; simp [kenBurnsClip, motions, h]
  · intro h; simp [kenBurnsClip, motions, h]
  · intro h; simp [kenBurnsClip, motions, h]
  · show |toFixed 3 d - d| ≤ 1 / 2000
    have h : toFixed 3 d - d = ((round (d * 1000) : ℤ) - d * 1000) / 1000 := by
      unfold toFixed
      norm_num
      ring
    have h2 : |((round (d * 1000) : ℤ) : ℚ) - d * 1000| ≤ 1/2 := by
      rw [abs_sub_comm]
      exact abs_sub_round (d * 1000)
    rw [h, abs_div]
    have h3 : |(1000 : ℚ)| = 1000 := by norm_num
    rw [h3]
    linarith
  · intro env h
    constructor
    · intro d0 hd0
      exact ⟨by simp [processSegment, hd0], encodeSegment_clip env i d0 false h⟩
    · intro ha
      exact ⟨by simp [processSegment, ha], encodeSegment_clip env i 6 true h⟩

/-- Witness for C5 at segment 6 (style `zoom_out`), duration `7/2`, with a
healthy segment environment encoding exactly those parameters. -/
theorem ken_burns_parameters_witness :
    (kenBurnsClip 6 (7/2)).fps = 30
    ∧ (kenBurnsClip 6 (7/2)).style = .zoom_out
    ∧ (kenBurnsClip 6 (7/2)).targetDuration = toFixed 3 (7/2)
    ∧ processSegment ⟨.ok (7/2), true, fun _ => true, true⟩ 6
        = .ok (encodeSegment ⟨.ok (7/2), true, fun _ => true, true⟩ 6 (7/2) false)
    ∧ (encodeSegment ⟨.ok (7/2), true, fun _ => true, true⟩ 6 (7/2) false).clip
        = some (kenBurnsClip 6 (7/2)) := by
  have h := ken_burns_parameters 6 (7/2) (by norm_num)
  have henv := (h.2.2.2.2.2.2.2.2.2.2 ⟨.ok (7/2), true, fun _ => true, true⟩ rfl).1 (7/2) rfl
  exact ⟨h.1, h.2.2.2.2.2.1 (by norm_num), h.2.2.2.2.2.2.2.2.1, henv.1, henv.2⟩

lemma segSteps_length (n : ℕ) : (segSteps n).length = 2 * n := by
  induction n with
  | zero => simp [segSteps]
  | succ n ih =>
    rw [segSteps, List.range_succ, List.flatMap_append, ← segSteps]
    simp [ih]
    omega

lemma segSteps_succ (n : ℕ) :
    segSteps (n + 1) = segSteps n ++ [.downloadAssets (n + 1), .encodeClip (n + 1)] := by
  rw [segSteps, List.range_succ, List.flatMap_append, ← segSteps]
  simp

lemma segSteps_download (n j : ℕ) (hj : j < n) :
    (segSteps n)[2 * j]? = some (.downloadAssets (j + 1)) := by
  induction n with
  | zero => omega
  | succ n ih =>
    rw [segSteps_succ]
    rcases Nat.lt_succ_iff_lt_or_eq.mp hj with h | h
    · rw [List.getElem?_append_left (by rw [segSteps_length]; omega)]
      exact ih h
    · subst h
      rw [List.getElem?_append_right (by rw [segSteps_length])]
      simp [segSteps_length]

lemma segSteps_encode (n j : ℕ) (hj : j < n) :
    (segSteps n)[2 * j + 1]? = some (.encodeClip (j + 1)) := by
  induction n with
  | zero => omega
  | succ n ih =>
    rw [segSteps_succ]
    rcases Nat.lt_succ_iff_lt_or_eq.mp hj with h | h
    · rw [List.getElem?_append_left (by rw [segSteps_length]; omega)]
      exact ih h
    · subst h
      rw [List.getElem?_append_right (by rw [segSteps_length]; omega)]
      simp [segSteps_length]

/-- C6 counterexample: at `SEGMENT_COUNT = 2` the executed step sequence has
no generate-video-clips step at all, differs from the claimed sequence, and
downloads segment 1's assets (position 4) before encoding its clip
(position 5) — not after all clip generation. -/
theorem pipeline_step_order_cex :
    PipeStep.genVideoClips ∉ systemSteps 2
    ∧ systemSteps 2 ≠ claimedSteps
    ∧ (systemSteps 2)[4]? = some (.downloadAssets 1)
    ∧ (systemSteps 2)[5]? = some (.encodeClip 1) := by decide

/-- C6 amended: the run is the linear sequence generate JSONs → generate
voice → generate images → trigger the stitcher, then per segment `j+1` in
order a download of its assets (position `4 + 2j`) immediately followed by its
clip encode (position `5 + 2j`), then the ffmpeg merge, the upload of the
result, and the status-row update; there is no separate generate-video-clips
or download-everything step. -/
theorem pipeline_step_order_amended (n : ℕ) :
    (systemSteps n).length = 7 + 2 * n
    ∧ (systemSteps n).take 4 = [.genJsons, .genVoice, .genImages, .triggerStitch]
    ∧ (∀ j, j < n → (systemSteps n)[4 + 2 * j]? = some (.downloadAssets (j + 1))
          ∧ (systemSteps n)[5 + 2 * j]? = some (.encodeClip (j + 1)))
    ∧ (systemSteps n).drop (4 + 2 * n) = [.mergeFfmpeg, .uploadResult, .updateStatusRow]
    ∧ PipeStep.genVideoClips ∉ systemSteps n
    ∧ PipeStep.downloadEverything ∉ systemSteps n := by
  have hpre : ([PipeStep.genJsons, .genVoice, .genImages, .triggerStitch] ++ segSteps n).length
      = 4 + 2 * n := by simp [segSteps_length]; omega
  refine ⟨?_, ?_, ?_, ?_, ?_, ?_⟩
  · simp [systemSteps, segSteps_length]; omega
  · rw [systemSteps, List.append_assoc,
      List.take_append_of_le_length (by simp)]
    rfl
  · intro j hj
    constructor
    · rw [systemSteps, List.getElem?_append_left (by rw [hpre]; omega),
        List.getElem?_append_right (by simp)]
      simpa using segSteps_download n j hj
    · rw [systemSteps, List.getElem?_append_left (by rw [hpre]; omega),
        List.getElem?_append_right (by simp; omega)]
      have h5 : 5 + 2 * j - [PipeStep.genJsons, .genVoice, .genImages, .triggerStitch].length
          = 2 * j + 1 := by simp; omega
      rw [h5]
      exact segSteps_encode n j hj
  · rw [systemSteps, List.drop_left' hpre]
  · simp [systemSteps, segSteps, List.mem_flatMap]
  · simp [systemSteps, segSteps, List.mem_flatMap]

/-- Witness for C6 amended at `n = 1`, `j = 0`. -/
theorem pipeline_step_order_amended_witness :
    (systemSteps 1).length = 9
    ∧ (systemSteps 1)[4]? = some (.downloadAssets 1)
    ∧ (systemSteps 1)[5]? = some (.encodeClip 1)
    ∧ (systemSteps 1).drop 6 = [.mergeFfmpeg, .uploadResult, .updateStatusRow] := by
  have h := pipeline_step_order_amended 1
  have hj := h.2.2.1 0 (by norm_num)
  exact ⟨h.1, by simpa using hj.1, by simpa using hj.2, by simpa using h.2.2.2.1⟩

/-- C7, code bug: the claim (and the code's own log line `Missing audio for
segment i, using default 6s.`) says a failed audio download falls back to a
6-second duration and assembly continues — but in the dominant failure mode
(missing audio in storage, a non-200 response) `downloadFile` rejects leaving
a 0-byte file, and `getDuration` on that file, outside both per-segment try
blocks, rejects and fails the whole job (first two conjuncts, at the concrete
input where every segment's audio is missing and everything else is healthy).
The 6-second fallback runs only when no file remains on disk (next group of
conjuncts); the encode is retried exactly once after a 1000 ms pause before a
segment is skipped (following group); and an empty `videoFiles` list after
the loop fails the job (last conjunct). -/
theorem stitcher_fallback_behaviour :
    stitcherAssembly (fun _ => ⟨.failFileLeft, true, fun _ => true, true⟩) 3
      = .error (.probeEmptyFile 1)
    ∧ stitcherLoopFrom (fun _ => ⟨.failFileLeft, true, fun _ => true, true⟩) 1 3
      = .error (.probeEmptyFile 1)
    ∧ processSegment ⟨.failNoFile, true, fun _ => true, true⟩ 1
      = .ok (encodeSegment ⟨.failNoFile, true, fun _ => true, true⟩ 1 6 true)
    ∧ (encodeSegment ⟨.failNoFile, true, fun _ => true, true⟩ 1 6 true).duration = 6
    ∧ (encodeSegment ⟨.failNoFile, true, fun _ => true, true⟩ 1 6 true).usedDefaultDuration
      = true
    ∧ (encodeSegment ⟨.failNoFile, true, fun _ => true, true⟩ 1 6 true).produced = true
    ∧ (encodeSegment ⟨.ok 3, true, fun k => k != 0, true⟩ 1 3 false).encodeAttempts = 2
    ∧ (encodeSegment ⟨.ok 3, true, fun k => k != 0, true⟩ 1 3 false).retrySleeps = [1000]
    ∧ (encodeSegment ⟨.ok 3, true, fun k => k != 0, true⟩ 1 3 false).produced = true
    ∧ (encodeSegment ⟨.ok 3, true, fun _ => false, true⟩ 1 3 false).encodeAttempts = 2
    ∧ (encodeSegment ⟨.ok 3, true, fun _ => false, true⟩ 1 3 false).produced = false
    ∧ stitcherAssembly (fun _ => ⟨.ok 3, false, fun _ => false, false⟩) 2
      = .error .noVideoSegments :=
  ⟨rfl, rfl, rfl, rfl, rfl, rfl, rfl, rfl, rfl, rfl, rfl, rfl⟩

lemma withRetryFrom_calls_le (fn : ℕ → Except ε α) (d : ℕ) :
    ∀ left i, (withRetryFrom fn d i left).2.1 ≤ left + 1 := by
  intro left
  induction left with
  | zero => intro i; simp [withRetryFrom]
  | succ left ih =>
    intro i
    simp only [withRetryFrom]
    cases h : fn i with
    | ok a => simp
    | error e =>
      simp only []
      have := ih (i + 1)
      omega

lemma withRetryFrom_sleeps (fn : ℕ → Except ε α) (d : ℕ) :
    ∀ left i, ∃ m, (withRetryFrom fn d i left).1 = List.replicate m d := by
  intro left
  induction left with
  | zero => intro i; exact ⟨0, rfl⟩
  | succ left ih =>
    intro i
    simp only [withRetryFrom]
    cases h : fn i with
    | ok a => exact ⟨0, rfl⟩
    | error e =>
      obtain ⟨m, hm⟩ := ih (i + 1)
      exact ⟨m + 1, by simp [hm, List.replicate_succ]⟩

lemma withRetryFrom_first_ok (fn : ℕ → Except ε α) (d : ℕ) :
    ∀ left i k a, k ≤ left → fn (i + k) = .ok a →
      (∀ j, j < k → (fn (i + j)).isOk = false) →
      withRetryFrom fn d i left = (List.replicate k d, k + 1, .ok a) := by
  intro left
  induction left with
  | zero =>
    intro i k a hk hok _
    interval_cases k
    simp only [withRetryFrom]
    rw [show i + 0 = i from rfl] at hok
    rw [hok]
    rfl
  | succ left ih =>
    intro i k a hk hok hfail
    cases k with
    | zero =>
      rw [show i + 0 = i from rfl] at hok
      simp only [withRetryFrom, hok]
      rfl
    | succ k =>
      have h0 : (fn i).isOk = false := by
        have := hfail 0 (Nat.succ_pos k)
        rwa [show i + 0 = i from rfl] at this
      cases hfi : fn i with
      | ok a0 => rw [hfi] at h0; simp [Except.isOk, Except.toBool] at h0
      | error e =>
        simp only [withRetryFrom, hfi]
        have hok' : fn (i + 1 + k) = .ok a := by
          rw [show i + 1 + k = i + (k + 1) from by omega]
          exact hok
        have hfail' : ∀ j, j < k → (fn (i + 1 + j)).isOk = false := by
          intro j hj
          rw [show i + 1 + j = i + (j + 1) from by omega]
          exact hfail (j + 1) (by omega)
        rw [ih (i + 1) k a (by omega) hok' hfail']
        simp [List.replicate_succ]

lemma withRetryFrom_all_fail (fn : ℕ → Except ε α) (d : ℕ) :
    ∀ left i e, (∀ j, j < left → (fn (i + j)).isOk = false) →
      fn (i + left) = .error e →
      withRetryFrom fn d i left = (List.replicate left d, left + 1, .error e) := by
  intro left
  induction left with
  | zero =>
    intro i e _ herr
    rw [show i + 0 = i from rfl] at herr
    simp only [withRetryFrom, herr]
    rfl
  | succ left ih =>
    intro i e hfail herr
    have h0 : (fn i).isOk = false := by
      have := hfail 0 (Nat.succ_pos left)
      rwa [show i + 0 = i from rfl] at this
    cases hfi : fn i with
    | ok a0 => rw [hfi] at h0; simp [Except.isOk, Except.toBool] at h0
    | error e0 =>
      simp only [withRetryFrom, hfi]
      have herr' : fn (i + 1 + left) = .error e := by
        rw [show i + 1 + left = i + (left + 1) from by omega]
        exact herr
      have hfail' : ∀ j, j < left → (fn (i + 1 + j)).isOk = false := by
        intro j hj
        rw [show i + 1 + j = i + (j + 1) from by omega]
        exact hfail (j + 1) (by omega)
      rw [ih (i + 1) e hfail' herr']
      simp [List.replicate_succ]

/-- C8: `withRetry` invokes `fn` at most `retries + 1` times; all its sleeps
use the one fixed delay (no growth); it returns the result of the first
successful invocation after `k` failures with exactly `k` fixed-delay sleeps
and `k + 1` invocations; when all `retries + 1` attempts fail it throws the
error of the final attempt; and `generateVoice` sleeps `segmentDelayMs`
(6000 ms for `ref:` voice-clone speakers, else `TTS_DELAY_MS = 5000`) before
every TTS request except the first. -/
theorem retry_and_delay_policy (ε α : Type) :
    (∀ (fn : ℕ → Except ε α) (retries delayMs : ℕ),
        (withRetryRun fn retries delayMs).2.1 ≤ retries + 1)
    ∧ (∀ (fn : ℕ → Except ε α) (retries delayMs : ℕ),
        ∃ m, (withRetryRun fn retries delayMs).1 = List.replicate m delayMs)
    ∧ (∀ (fn : ℕ → Except ε α) (retries delayMs k : ℕ) (a : α), k ≤ retries →
        fn k = .ok a → (∀ j, j < k → (fn j).isOk = false) →
        withRetryRun fn retries delayMs = (List.replicate k delayMs, k + 1, .ok a))
    ∧ (∀ (fn : ℕ → Except ε α) (retries delayMs : ℕ) (e : ε),
        (∀ j, j < retries → (fn j).isOk = false) → fn retries = .error e →
        withRetryRun fn retries delayMs = (List.replicate retries delayMs, retries + 1, .error e))
    ∧ (∀ (speaker : String) (fail : ℕ → Bool),
        voiceSegmentEvents speaker fail 0 =
          VoiceEvent.request 0 :: (if fail 0 = true then [.logFail 0, .wait ttsDelayMs] else []))
    ∧ (∀ (speaker : String) (fail : ℕ → Bool) (i : ℕ), 0 < i →
        voiceSegmentEvents speaker fail i =
          .wait (segmentDelayMs speaker) :: .request i ::
            (if fail i = true then [.logFail i, .wait ttsDelayMs] else []))
    ∧ (∀ speaker : String, isVoiceClone speaker = true → segmentDelayMs speaker = 6000)
    ∧ (∀ speaker : String, isVoiceClone speaker = false → segmentDelayMs speaker = 5000) := by
  refine ⟨fun fn retries delayMs => withRetryFrom_calls_le fn delayMs retries 0,
    fun fn retries delayMs => withRetryFrom_sleeps fn delayMs retries 0,
    fun fn retries delayMs k a hk hok hfail => ?_,
    fun fn retries delayMs e hfail herr => ?_,
    fun speaker fail => by simp [voiceSegmentEvents],
    fun speaker fail i hi => by simp [voiceSegmentEvents, hi],
    fun speaker h => by simp [segmentDelayMs, h],
    fun speaker h => by simp [segmentDelayMs, h, ttsDelayMs]⟩
  · exact withRetryFrom_first_ok fn delayMs retries 0 k a hk
      (by rwa [Nat.zero_add]) (fun j hj => by rw [Nat.zero_add]; exact hfail j hj)
  · exact withRetryFrom_all_fail fn delayMs retries 0 e
      (fun j hj => by rw [Nat.zero_add]; exact hfail j hj) (by rwa [Nat.zero_add])

/-- Witness for C8: a run that fails once then succeeds makes 2 invocations
with one fixed sleep; `ref:`-speakers wait 6000 ms between segments. -/
theorem retry_and_delay_policy_witness :
    withRetryRun (fun k => if k = 0 then Except.error 0 else Except.ok 7) 5 100
      = (List.replicate 1 100, 2, Except.ok (7 : ℕ))
    ∧ segmentDelayMs "ref:alice.mp3" = 6000 := by
  have h := retry_and_delay_policy ℕ ℕ
  refine ⟨h.2.2.1 _ 5 100 1 7 (by norm_num) (by norm_num) ?_, h.2.2.2.2.2.2.1 _ (by decide)⟩
  intro j hj
  interval_cases j
  rfl

/-- C9 counterexample: a `segment_count` that parses to `0` is below 1, yet
the effective count becomes 5 (JS `|| 5` treats `0` as falsy), not 1 as the
claim states. -/
theorem segment_count_clamp_cex :
    effectiveSegmentCount (some 0) = 5 ∧ effectiveSegmentCount (some 0) ≠ 1 := by decide

/-- C9 amended: the effective segment count always lies in `[1, 60]`; a value
that fails to parse defaults to 5, a value that parses to `0` also defaults
to 5 (zero is falsy in `parseInt(...) || 5`), a negative value becomes 1, a
value above 60 becomes 60, and a value already in `[1, 60]` is kept. -/
theorem segment_count_clamp_amended (p : Option ℤ) :
    1 ≤ effectiveSegmentCount p
    ∧ effectiveSegmentCount p ≤ 60
    ∧ (p = none → effectiveSegmentCount p = 5)
    ∧ (∀ n : ℤ, p = some n →
        (n = 0 → effectiveSegmentCount p = 5)
        ∧ (n < 0 → effectiveSegmentCount p = 1)
        ∧ (60 < n → effectiveSegmentCount p = 60)
        ∧ (1 ≤ n → n ≤ 60 → effectiveSegmentCount p = n)) := by
  rcases p with _ | n
  · refine ⟨by norm_num [effectiveSegmentCount], by norm_num [effectiveSegmentCount],
      fun _ => by norm_num [effectiveSegmentCount], fun n hn => by cases hn⟩
  · refine ⟨?_, ?_, by simp, ?_⟩
    · simp only [effectiveSegmentCount]
      split <;> omega
    · simp only [effectiveSegmentCount]
      split <;> omega
    · intro m hm
      obtain rfl : n = m := by injection hm
      refine ⟨fun h0 => ?_, fun hneg => ?_, fun hgt => ?_, fun h1 h60 => ?_⟩ <;>
        (simp only [effectiveSegmentCount]; split <;> omega)

/-- Witness for C9 amended: 70 clamps to 60, an unparsable value gives 5. -/
theorem segment_count_clamp_amended_witness :
    effectiveSegmentCount (some 70) = 60 ∧ effectiveSegmentCount none = 5 :=
  ⟨((segment_count_clamp_amended (some 70)).2.2.2 70 rfl).2.2.1 (by norm_num),
   (segment_count_clamp_amended none).2.2.1 rfl⟩

/-- C10: a POST whose `script`, `voice_name` or `segment_count` is absent or
falsy (including `segment_count = 0`) gets HTTP 400 with `success: false` and
no insert is issued; otherwise exactly one row is inserted, with status
`pending` and progress 0, and when the insert succeeds the response is
`success: true` with the new job id. -/
theorem submit_route_validation (b : SubmitBody) (db : Option ℕ) :
    (truthyStr b.script = false ∨ truthyStr b.voice_name = false
        ∨ truthyInt b.segment_count = false →
      submitRoute b db = (⟨400, false, none⟩, []))
    ∧ (b.segment_count = some 0 → submitRoute b db = (⟨400, false, none⟩, []))
    ∧ (truthyStr b.script = true → truthyStr b.voice_name = true →
        truthyInt b.segment_count = true →
        (submitRoute b db).2 = [submitInsertRow b]
        ∧ (submitInsertRow b).status = .pending
        ∧ (submitInsertRow b).progress = 0
        ∧ (∀ jobId, db = some jobId → (submitRoute b db).1 = ⟨200, true, some jobId⟩)) := by
  refine ⟨fun h => ?_, fun h => ?_, fun h1 h2 h3 => ?_⟩
  · rcases h with h | h | h <;> simp [submitRoute, h]
  · have hf : truthyInt b.segment_count = false := by rw [h]; rfl
    simp [submitRoute, hf]
  · refine ⟨?_, rfl, rfl, ?_⟩
    · rcases db with _ | jobId <;> simp [submitRoute, h1, h2, h3]
    · intro jobId hdb
      subst hdb
      simp [submitRoute, h1, h2, h3]

/-- Witness for C10: `segment_count = 0` is rejected with 400 and no insert;
a valid body inserts one pending row and returns the new id. -/
theorem submit_route_validation_witness :
    submitRoute ⟨some "hello", some "Ryan", some 0⟩ (some 9) = (⟨400, false, none⟩, [])
    ∧ (submitRoute ⟨some "hello", some "Ryan", some 3⟩ (some 9)).1 = ⟨200, true, some 9⟩
    ∧ (submitRoute ⟨some "hello", some "Ryan", some 3⟩ (some 9)).2
        = [submitInsertRow ⟨some "hello", some "Ryan", some 3⟩]
    ∧ (submitInsertRow ⟨some "hello", some "Ryan", some 3⟩).status = .pending := by
  have h0 := submit_route_validation ⟨some "hello", some "Ryan", some 0⟩ (some 9)
  have h3 := submit_route_validation ⟨some "hello", some "Ryan", some 3⟩ (some 9)
  have hmain := h3.2.2 (by decide) (by decide) (by decide)
  exact ⟨h0.2.1 rfl, hmain.2.2.2 9 rfl, hmain.1, hmain.2.1⟩

end AiVideo
